import Mathlib

/-!
Verification of the MPD playlist-resolution subsystem.

Shallow embedding of:
- src/src/playlist/SoundCloudPlaylistPlugin.cxx — the streaming JSON track
  extractor (yajl callbacks `handle_integer`, `handle_string`,
  `handle_mapkey`, `handle_start_map`, `handle_end_map`), the read/parse
  loop of `soundcloud_parse_json`, and the provider construction at the
  end of `soundcloud_open_uri`.
- src/src/PlaylistRegistry.cxx — plugin registry, `playlist_list_global_init`
  and `playlist_list_global_finish`, `playlist_list_open_uri` (scheme pass
  then suffix pass with the stack-local `tried` array), and
  `playlist_list_open_stream` (MIME pass, with MIME-parameter stripping,
  then suffix pass).

External collaborators (glib URI helpers, the byte-stream transport, the
yajl tokenizer itself, configuration parsing) are abstracted as parameters:
the extracted scheme / suffix / MIME type arrive as `Option String`, the
tokenizer's callback stream as a list of events, a plugin's open attempt as
an oracle `Nat → Option P` keyed by registry index.

C byte strings are modelled as Lean `String`/`List Char` without embedded
NUL characters; C `long` as `Int` with `Int.div` for the truncating `/`.
-/

namespace MPD

/-! ## SoundCloud streaming JSON track extractor
    (src/src/playlist/SoundCloudPlaylistPlugin.cxx) -/

/-- The `enum key` of the source: which recognized field the next scalar
value belongs to.  In the C code this is an `int`; any out-of-range value
behaves like `Other` in both `switch` statements, so the four-constructor
type covers all behaviours. -/
inductive key where
  | Duration : key
  | Title : key
  | Stream_URL : key
  | Other : key
deriving DecidableEq

/-- One resolved track (`Song::NewRemote` plus its `Tag`): the synthesized
URL (`none` models the C code concatenating a NULL `stream_url`, i.e. a
null-pointer read), the optional title item, and `t->time` in seconds. -/
structure Song where
  url : Option String
  title : Option String
  time : Int
deriving DecidableEq

/-- `struct parse_data`.  `songs` is the `std::forward_list` (front =
most recently emplaced).  In `soundcloud_open_uri` the fields `got_url`,
`title` and `stream_url` are initialized but `key` and `duration` are
left uninitialized, so the initial state below takes them as parameters. -/
structure parse_data where
  key : key
  stream_url : Option String
  duration : Int
  title : Option String
  got_url : Nat
  songs : List Song
deriving DecidableEq

/-- The initial `parse_data` set up in `soundcloud_open_uri`:
`got_url = 0`, `title = NULL`, `stream_url = NULL`; `k0` and `d0` stand for
the uninitialized `key` and `duration` fields. -/
def sc_init (k0 : key) (d0 : Int) : parse_data :=
  { key := k0, stream_url := none, duration := d0, title := none,
    got_url := 0, songs := [] }

/-- C `strncmp(a, b, n) == 0` for NUL-free byte strings, the end of a list
standing for the terminating NUL. -/
def strncmpZero : List Char → List Char → Nat → Bool
  | _, _, 0 => true
  | [], [], _ + 1 => true
  | [], _ :: _, _ + 1 => false
  | _ :: _, [], _ + 1 => false
  | c :: a, d :: b, n + 1 => c == d && strncmpZero a b n

/-- The classification loop of `handle_mapkey`: first `i < Other` with
`strncmp(stringval, key_str[i], stringlen) == 0`, else `Other`.  Note the
length passed is the key's own length, exactly as in the source. -/
def classify_key (k : List Char) : key :=
  if strncmpZero k "duration".data k.length then key.Duration
  else if strncmpZero k "title".data k.length then key.Title
  else if strncmpZero k "stream_url".data k.length then key.Stream_URL
  else key.Other

/-- `handle_integer`: store the value into `duration` when the current key
is `Duration`, otherwise ignore. -/
def handle_integer (d : parse_data) (n : Int) : parse_data :=
  match d.key with
  | key.Duration => { d with duration := n }
  | _ => d

/-- `handle_string`: on `Title` replace the title; on `Stream_URL` replace
the URL and set `got_url = 1`; otherwise ignore. -/
def handle_string (d : parse_data) (s : String) : parse_data :=
  match d.key with
  | key.Title => { d with title := some s }
  | key.Stream_URL => { d with stream_url := some s, got_url := 1 }
  | _ => d

/-- `handle_mapkey`: classify the key. -/
def handle_mapkey (d : parse_data) (k : List Char) : parse_data :=
  { d with key := classify_key k }

/-- `handle_start_map`: increment `got_url` when it is positive. -/
def handle_start_map (d : parse_data) : parse_data :=
  if d.got_url > 0 then { d with got_url := d.got_url + 1 } else d

/-- The song built in `handle_end_map` when `got_url == 1`:
`g_strconcat(stream_url, "?client_id=", apikey)` (a NULL `stream_url`
becomes `none`), `t->time = duration / 1000` (C truncating division), and
the title item if the title is non-NULL. -/
def mk_song (apikey : String) (d : parse_data) : Song :=
  { url := d.stream_url.map (fun su => su ++ "?client_id=" ++ apikey),
    title := d.title,
    time := Int.tdiv d.duration 1000 }

/-- `handle_end_map`: decrement when `got_url > 1`; no-op when
`got_url == 0`; when `got_url == 1` reset `got_url` to 0 and emplace the
finished song at the front of `songs`.  Note: `title`, `stream_url` and
`duration` are left untouched, exactly as in the source. -/
def handle_end_map (apikey : String) (d : parse_data) : parse_data :=
  if d.got_url > 1 then { d with got_url := d.got_url - 1 }
  else if d.got_url = 0 then d
  else { d with got_url := 0, songs := mk_song apikey d :: d.songs }

/-- One yajl callback event (the callbacks registered in
`parse_callbacks`; array events are NULL there). -/
inductive SCEvent where
  | integer (n : Int) : SCEvent
  | str (s : String) : SCEvent
  | mapKey (k : String) : SCEvent
  | startMap : SCEvent
  | endMap : SCEvent
deriving DecidableEq

/-- Dispatch one event to its handler. -/
def sc_step (apikey : String) (d : parse_data) : SCEvent → parse_data
  | SCEvent.integer n => handle_integer d n
  | SCEvent.str s => handle_string d s
  | SCEvent.mapKey k => handle_mapkey d k.data
  | SCEvent.startMap => handle_start_map d
  | SCEvent.endMap => handle_end_map apikey d

/-- Run a sequence of decoder events through the callbacks. -/
def sc_run (apikey : String) (events : List SCEvent) (d : parse_data) : parse_data :=
  events.foldl (sc_step apikey) d

/-- The extraction result `soundcloud_open_uri` builds on success:
`data.songs.reverse()` handed to `MemoryPlaylistProvider`. -/
def soundcloud_extract (apikey : String) (k0 : key) (d0 : Int)
    (events : List SCEvent) : List Song :=
  (sc_run apikey events (sc_init k0 d0)).songs.reverse

/-- The songs `handle_end_map` emits on one event: exactly one when the
event is an end-of-map with `got_url == 1`. -/
def sc_emits (apikey : String) (d : parse_data) : SCEvent → List Song
  | SCEvent.endMap => if d.got_url = 1 then [mk_song apikey d] else []
  | _ => []

/-- The records of a decode pass in the order their closing end-of-map
events occur in the event stream, i.e. in source-document order. -/
def sc_trace (apikey : String) : List SCEvent → parse_data → List Song
  | [], _ => []
  | e :: rest, d => sc_emits apikey d e ++ sc_trace apikey rest (sc_step apikey d e)

/-- One iteration of the read loop in `soundcloud_parse_json`:
a data chunk fed to `yajl_parse` (`ok` = the decoder's status, the events
are those delivered before a possible decode error), the end-of-file
completion call, or a read error (`nbytes == 0` without EOF). -/
inductive ReadStep where
  | chunk (events : List SCEvent) (ok : Bool) : ReadStep
  | eofStep (events : List SCEvent) (ok : Bool) : ReadStep
  | readErr : ReadStep
deriving DecidableEq

/-- The read/parse loop of `soundcloud_parse_json` (lines 266-302 of the
source): a chunk whose decode fails logs the yajl error and `break`s out
of the loop, after which the function returns 0; the EOF completion call
returns 0 whether or not `yajl_complete_parse` succeeded; a read error
returns -1.  The first component is the C return value. -/
def sc_parse_loop (apikey : String) : List ReadStep → parse_data → Int × parse_data
  | [], d => (0, d)
  | ReadStep.chunk evs ok :: rest, d =>
    let d2 := sc_run apikey evs d
    if ok then sc_parse_loop apikey rest d2 else (0, d2)
  | ReadStep.eofStep evs _ :: _, d => (0, sc_run apikey evs d)
  | ReadStep.readErr :: _, d => (-1, d)

/-- The tail of `soundcloud_open_uri` (lines 367-393): run the parse loop
from the freshly initialized `parse_data`; a -1 return yields a null
provider, anything else yields the reversed song list. -/
def soundcloud_open_uri_model (apikey : String) (k0 : key) (d0 : Int)
    (steps : List ReadStep) : Option (List Song) :=
  let r := sc_parse_loop apikey steps (sc_init k0 d0)
  if r.1 = -1 then none else some r.2.songs.reverse

/-- Whether the incremental decoder reported a decode error at some point
of the stream. -/
def decode_error_reported (steps : List ReadStep) : Bool :=
  steps.any (fun s =>
    match s with
    | ReadStep.chunk _ ok => !ok
    | ReadStep.eofStep _ ok => !ok
    | ReadStep.readErr => false)

/-- A read-loop step that parses a data chunk successfully. -/
def ok_chunk : ReadStep → Bool
  | ReadStep.chunk _ true => true
  | _ => false

/-- The decoder events a read-loop step delivers. -/
def step_events : ReadStep → List SCEvent
  | ReadStep.chunk evs _ => evs
  | ReadStep.eofStep evs _ => evs
  | ReadStep.readErr => []

/-- All events delivered by a list of read-loop steps. -/
def events_of : List ReadStep → List SCEvent
  | [] => []
  | s :: rest => step_events s ++ events_of rest

/-! ## Plugin registry and resolution engine (src/src/PlaylistRegistry.cxx) -/

/-- `struct playlist_plugin`: the static descriptor.  The nullable
function pointers `open_uri` / `open_stream` are modelled as capability
flags (what their open attempts return is a per-call oracle below);
`schemes`, `suffixes` and `mime_types` are nullable NULL-terminated string
arrays. -/
structure playlist_plugin where
  name : String
  hasOpenUri : Bool
  hasOpenStream : Bool
  schemes : Option (List String)
  suffixes : Option (List String)
  mime_types : Option (List String)
deriving DecidableEq, Inhabited

/-- `string_array_contains` (util/StringUtil): exact string membership. -/
def string_array_contains (l : List String) (s : String) : Bool :=
  l.contains s

/-- `X != NULL && string_array_contains(X, s)`. -/
def opt_contains (o : Option (List String)) (s : String) : Bool :=
  match o with
  | none => false
  | some l => string_array_contains l s

/-- Which matching pass probed a plugin (for the probe traces below). -/
inductive Pass where
  | scheme : Pass
  | suffixUri : Pass
  | mimeType : Pass
  | suffixStream : Pass
deriving DecidableEq

/-- A registry for one resolution call: each entry is the registry index,
the descriptor, and its `playlist_plugins_enabled` flag (read-only during
resolution).  The canonical registry indexes the entries by position. -/
abbrev Registry := List (Nat × playlist_plugin × Bool)

/-- The guard of the scheme-pass loop body (PlaylistRegistry.cxx:144-146):
`playlist_plugins_enabled[i] && plugin->open_uri != NULL &&
plugin->schemes != NULL && string_array_contains(plugin->schemes, scheme)`. -/
def scheme_cond (pl : playlist_plugin) (en : Bool) (sch : String) : Bool :=
  en && pl.hasOpenUri && opt_contains pl.schemes sch

/-- `playlist_list_open_uri_scheme` after scheme extraction: walk the
registry; on a guard match attempt the open (`openRes i`); a success
breaks out, a failure marks `tried[i] = true`.  Returns the result, the
final `tried` array (as a function), and the list of probes made. -/
def playlist_list_open_uri_scheme {P : Type} (openRes : Nat → Option P)
    (sch : String) :
    Registry → (Nat → Bool) → Option P × (Nat → Bool) × List (Pass × Nat)
  | [], tried => (none, tried, [])
  | (i, pl, en) :: rest, tried =>
    if scheme_cond pl en sch then
      match openRes i with
      | some p => (some p, tried, [(Pass.scheme, i)])
      | none =>
        let r := playlist_list_open_uri_scheme openRes sch rest
          (fun j => if j = i then true else tried j)
        (r.1, r.2.1, (Pass.scheme, i) :: r.2.2)
    else
      playlist_list_open_uri_scheme openRes sch rest tried

/-- The guard of the suffix-pass loop body (PlaylistRegistry.cxx:176-178):
`playlist_plugins_enabled[i] && !tried[i] && plugin->open_uri != NULL &&
plugin->suffixes != NULL && string_array_contains(plugin->suffixes, suffix)`. -/
def suffix_uri_cond (pl : playlist_plugin) (en : Bool) (tr : Bool)
    (suf : String) : Bool :=
  en && !tr && pl.hasOpenUri && opt_contains pl.suffixes suf

/-- `playlist_list_open_uri_suffix` after suffix extraction: walk the
registry skipping plugins already tried by the scheme pass. -/
def playlist_list_open_uri_suffix {P : Type} (openRes : Nat → Option P)
    (suf : String) :
    Registry → (Nat → Bool) → Option P × List (Pass × Nat)
  | [], _ => (none, [])
  | (i, pl, en) :: rest, tried =>
    if suffix_uri_cond pl en (tried i) suf then
      match openRes i with
      | some p => (some p, [(Pass.suffixUri, i)])
      | none =>
        let r := playlist_list_open_uri_suffix openRes suf rest tried
        (r.1, (Pass.suffixUri, i) :: r.2)
    else
      playlist_list_open_uri_suffix openRes suf rest tried

/-- `playlist_list_open_uri`: zero the stack-local `tried` array, run the
scheme pass (skipped entirely when `g_uri_parse_scheme` returned NULL,
modelled by `sch = none`), and on failure run the suffix pass over the
same `tried` array (skipped when `uri_get_suffix` returned NULL).
Returns the provider and the probe trace of the whole call. -/
def playlist_list_open_uri {P : Type} (openRes : Nat → Option P)
    (plugins : Registry) (sch suf : Option String) :
    Option P × List (Pass × Nat) :=
  let s := match sch with
    | none => ((none : Option P), (fun _ => false : Nat → Bool),
               ([] : List (Pass × Nat)))
    | some sch => playlist_list_open_uri_scheme openRes sch plugins
        (fun _ => false)
  match s.1 with
  | some p => (some p, s.2.2)
  | none =>
    match suf with
    | none => (none, s.2.2)
    | some su =>
      let r := playlist_list_open_uri_suffix openRes su plugins s.2.1
      (r.1, s.2.2 ++ r.2)

/-- The guard of the MIME-pass loop body (PlaylistRegistry.cxx:217-220).
The `playlist_plugins_for_each_enabled` macro supplies the enabled check. -/
def mime_cond (pl : playlist_plugin) (en : Bool) (m : String) : Bool :=
  en && pl.hasOpenStream && opt_contains pl.mime_types m

/-- `playlist_list_open_stream_mime2`: walk the registry, rewinding the
stream and attempting each MIME-matching enabled plugin. -/
def playlist_list_open_stream_mime2 {P : Type} (openS : Nat → Option P)
    (m : String) : Registry → Option P × List (Pass × Nat)
  | [] => (none, [])
  | (i, pl, en) :: rest =>
    if mime_cond pl en m then
      match openS i with
      | some p => (some p, [(Pass.mimeType, i)])
      | none =>
        let r := playlist_list_open_stream_mime2 openS m rest
        (r.1, (Pass.mimeType, i) :: r.2)
    else
      playlist_list_open_stream_mime2 openS m rest

/-- The MIME-parameter handling of `playlist_list_open_stream_mime`
(lines 239-247): no `;` → use the full string; `;` as the first
character → unusable (NULL result, no probing); otherwise use the
portion before the first `;`. -/
def mime_strip (full : String) : Option String :=
  let pre := full.data.takeWhile (fun c => !(c == ';'))
  if pre.length = full.data.length then some full
  else if pre.length = 0 then none
  else some (String.mk pre)

/-- `playlist_list_open_stream_mime`. -/
def playlist_list_open_stream_mime {P : Type} (openS : Nat → Option P)
    (full : String) (plugins : Registry) : Option P × List (Pass × Nat) :=
  match mime_strip full with
  | none => (none, [])
  | some m => playlist_list_open_stream_mime2 openS m plugins

/-- The guard of the stream-suffix-pass loop body (lines 263-265). -/
def suffix_stream_cond (pl : playlist_plugin) (en : Bool) (suf : String) : Bool :=
  en && pl.hasOpenStream && opt_contains pl.suffixes suf

/-- `playlist_list_open_stream_suffix`. -/
def playlist_list_open_stream_suffix {P : Type} (openS : Nat → Option P)
    (suf : String) : Registry → Option P × List (Pass × Nat)
  | [] => (none, [])
  | (i, pl, en) :: rest =>
    if suffix_stream_cond pl en suf then
      match openS i with
      | some p => (some p, [(Pass.suffixStream, i)])
      | none =>
        let r := playlist_list_open_stream_suffix openS suf rest
        (r.1, (Pass.suffixStream, i) :: r.2)
    else
      playlist_list_open_stream_suffix openS suf rest

/-- `playlist_list_open_stream` (lines 279-302): wait for the stream,
then MIME pass first (when the stream exposes a MIME type); a MIME-pass
success returns immediately; otherwise the suffix pass runs (when a URI
was supplied and has a suffix).  `mime` is the stream's
`GetMimeType()` result, `usuf` the `uri_get_suffix(uri)` result. -/
def playlist_list_open_stream {P : Type} (openS : Nat → Option P)
    (plugins : Registry) (mime : Option String) (usuf : Option String) :
    Option P × List (Pass × Nat) :=
  let m := match mime with
    | some full => playlist_list_open_stream_mime openS full plugins
    | none => ((none : Option P), ([] : List (Pass × Nat)))
  match m.1 with
  | some p => (some p, m.2)
  | none =>
    match usuf with
    | none => (none, m.2)
    | some suf =>
      let r := playlist_list_open_stream_suffix openS suf plugins
      (r.1, m.2 ++ r.2)

/-! ## Plugin lifecycle (playlist_list_global_init / _finish) -/

/-- `playlist_list_global_init` (lines 99-117), from slot index `st`.
`cfg name` is the configuration lookup: `none` when no "playlist" block
names the plugin (the empty block is used), `some b` when a block exists
with effective `GetBlockValue("enabled", true) = b`.  `initRes i` is what
`playlist_plugin_init` returns for slot `i` when called.  Returns the
`playlist_plugins_enabled` array (one flag per slot; the static array is
zero-initialized, so a skipped slot stays `false`) and the trace of slots
whose init was called. -/
def playlist_list_global_init (cfg : String → Option Bool)
    (initRes : Nat → Bool) : List playlist_plugin → Nat → List Bool × List Nat
  | [], _ => ([], [])
  | pl :: rest, st =>
    let r := playlist_list_global_init cfg initRes rest (st + 1)
    match cfg pl.name with
    | some false => (false :: r.1, r.2)
    | _ => (initRes st :: r.1, st :: r.2)

/-- `playlist_list_global_finish` (lines 119-124): call finish on every
enabled slot in declared order; returns the trace of finish calls. -/
def playlist_list_global_finish : List Bool → Nat → List Nat
  | [], _ => []
  | b :: rest, st =>
    if b then st :: playlist_list_global_finish rest (st + 1)
    else playlist_list_global_finish rest (st + 1)

/-! ## Lemmas about the streaming extractor -/

/-- One callback step changes `songs` exactly by prepending the songs it
emits. -/
theorem sc_step_songs (apikey : String) (d : parse_data) (e : SCEvent) :
    (sc_step apikey d e).songs = sc_emits apikey d e ++ d.songs := by
  obtain ⟨k, su, du, ti, gu, ss⟩ := d
  cases e with
  | integer n => cases k <;> rfl
  | str s => cases k <;> rfl
  | mapKey s => rfl
  | startMap =>
    rcases gu with _ | n <;>
      simp [sc_step, sc_emits, handle_start_map]
  | endMap =>
    rcases gu with _ | _ | n <;>
      simp [sc_step, sc_emits, handle_end_map, mk_song]

/-- `sc_emits` yields at most one song, so it is its own reverse. -/
theorem sc_emits_reverse (apikey : String) (d : parse_data) (e : SCEvent) :
    (sc_emits apikey d e).reverse = sc_emits apikey d e := by
  cases e <;> simp [sc_emits]
  split <;> simp

/-- Splitting a run of events. -/
theorem sc_run_append (apikey : String) (a b : List SCEvent) (d : parse_data) :
    sc_run apikey (a ++ b) d = sc_run apikey b (sc_run apikey a d) := by
  simp [sc_run, List.foldl_append]

/-- The song list accumulated by a run is the reversed emission trace on
top of the starting song list. -/
theorem sc_run_songs (apikey : String) :
    ∀ (events : List SCEvent) (d : parse_data),
    (sc_run apikey events d).songs = (sc_trace apikey events d).reverse ++ d.songs := by
  intro events
  induction events with
  | nil => intro d; simp [sc_run, sc_trace]
  | cons e rest ih =>
    intro d
    have h1 : sc_run apikey (e :: rest) d = sc_run apikey rest (sc_step apikey d e) := rfl
    rw [h1, ih, sc_step_songs, sc_trace, List.reverse_append,
        sc_emits_reverse, List.append_assoc]

/-- The extractor invariant of C10: a positive `got_url` witnesses a
non-NULL `stream_url`, and every accumulated song has a non-NULL URL. -/
def sc_inv (d : parse_data) : Prop :=
  (d.got_url > 0 → d.stream_url ≠ none) ∧ ∀ s ∈ d.songs, s.url ≠ none

/-- Every callback preserves the extractor invariant. -/
theorem sc_step_inv (apikey : String) (d : parse_data) (e : SCEvent)
    (h : sc_inv d) : sc_inv (sc_step apikey d e) := by
  obtain ⟨h1, h2⟩ := h
  obtain ⟨k, su, du, ti, gu, ss⟩ := d
  cases e with
  | integer n =>
    cases k <;> exact ⟨h1, h2⟩
  | str s =>
    cases k with
    | Title => exact ⟨h1, h2⟩
    | Stream_URL =>
      refine ⟨fun _ => by simp [sc_step, handle_string], ?_⟩
      simpa [sc_step, handle_string] using h2
    | Duration => exact ⟨h1, h2⟩
    | Other => exact ⟨h1, h2⟩
  | mapKey s => exact ⟨h1, h2⟩
  | startMap =>
    rcases gu with _ | n
    · exact ⟨h1, h2⟩
    · refine ⟨fun _ => ?_, ?_⟩
      · simpa [sc_step, handle_start_map] using h1 (by simp)
      · simpa [sc_step, handle_start_map] using h2
  | endMap =>
    rcases gu with _ | _ | n
    · exact ⟨h1, h2⟩
    · have hsu : su ≠ none := h1 (by simp)
      refine ⟨fun hc => ?_, ?_⟩
      · simp [sc_step, handle_end_map] at hc
      · intro s hs
        simp only [sc_step, handle_end_map] at hs
        norm_num at hs
        rcases hs with hs | hs
        · rcases Option.ne_none_iff_exists.mp hsu with ⟨u, hu⟩
          simp [hs, mk_song, ← hu]
        · exact h2 s hs
    · refine ⟨fun _ => ?_, ?_⟩
      · simpa [sc_step, handle_end_map] using h1 (by simp)
      · simpa [sc_step, handle_end_map] using h2

/-- A whole run preserves the extractor invariant. -/
theorem sc_run_inv (apikey : String) :
    ∀ (events : List SCEvent) (d : parse_data),
    sc_inv d → sc_inv (sc_run apikey events d) := by
  intro events
  induction events with
  | nil => intro d h; exact h
  | cons e rest ih => intro d h; exact ih _ (sc_step_inv apikey d e h)

/-- A prefix of successfully parsed chunks just advances the state. -/
theorem sc_parse_loop_ok_pre (apikey : String) :
    ∀ (pre : List ReadStep), pre.all ok_chunk = true →
    ∀ (rest : List ReadStep) (d : parse_data),
    sc_parse_loop apikey (pre ++ rest) d =
      sc_parse_loop apikey rest (sc_run apikey (events_of pre) d) := by
  intro pre
  induction pre with
  | nil => intro _ rest d; simp [events_of, sc_run]
  | cons s pre ih =>
    intro hall rest d
    simp only [List.all_cons, Bool.and_eq_true] at hall
    obtain ⟨hs, hall⟩ := hall
    cases s with
    | chunk evs ok =>
      cases ok with
      | false => simp [ok_chunk] at hs
      | true =>
        have h1 : (ReadStep.chunk evs true :: pre) ++ rest =
            ReadStep.chunk evs true :: (pre ++ rest) := rfl
        rw [h1]
        show sc_parse_loop apikey (pre ++ rest) (sc_run apikey evs d) = _
        rw [ih hall rest (sc_run apikey evs d), events_of, step_events,
            sc_run_append]
    | eofStep evs ok => simp [ok_chunk] at hs
    | readErr => simp [ok_chunk] at hs

/-! ## Lemmas about the resolution engine -/

/-- The scheme pass never clears a `tried` mark. -/
theorem scheme_tried_mono {P : Type} (openRes : Nat → Option P) (sch : String) :
    ∀ (l : Registry) (tried : Nat → Bool) (i : Nat), tried i = true →
    (playlist_list_open_uri_scheme openRes sch l tried).2.1 i = true := by
  intro l
  induction l with
  | nil => intro tried i h; simpa [playlist_list_open_uri_scheme] using h
  | cons hd tl ih =>
    obtain ⟨j, pl, en⟩ := hd
    intro tried i h
    cases hc : scheme_cond pl en sch with
    | false => simpa [playlist_list_open_uri_scheme, hc] using ih tried i h
    | true =>
      cases hr : openRes j with
      | some p => simpa [playlist_list_open_uri_scheme, hc, hr] using h
      | none =>
        simp only [playlist_list_open_uri_scheme, hc, hr]
        apply ih
        by_cases hij : i = j
        · simp [hij]
        · simp [hij, h]

/-- Every probe the scheme pass makes is a scheme-pass probe. -/
theorem scheme_trace_is_scheme {P : Type} (openRes : Nat → Option P) (sch : String) :
    ∀ (l : Registry) (tried : Nat → Bool) (pr : Pass) (i : Nat),
    (pr, i) ∈ (playlist_list_open_uri_scheme openRes sch l tried).2.2 →
    pr = Pass.scheme := by
  intro l
  induction l with
  | nil => intro tried pr i h; simp [playlist_list_open_uri_scheme] at h
  | cons hd tl ih =>
    obtain ⟨j, pl, en⟩ := hd
    intro tried pr i h
    cases hc : scheme_cond pl en sch with
    | false =>
      simp [playlist_list_open_uri_scheme, hc] at h
      exact ih tried pr i h
    | true =>
      cases hr : openRes j with
      | some p =>
        simp [playlist_list_open_uri_scheme, hc, hr] at h
        exact h.1
      | none =>
        simp [playlist_list_open_uri_scheme, hc, hr] at h
        rcases h with h | h
        · exact h.1
        · exact ih _ pr i h

/-- A plugin probed by the scheme pass whose open attempt failed is marked
tried in the final `tried` array. -/
theorem scheme_fail_sets_tried {P : Type} (openRes : Nat → Option P) (sch : String) :
    ∀ (l : Registry) (tried : Nat → Bool) (i : Nat), openRes i = none →
    (Pass.scheme, i) ∈ (playlist_list_open_uri_scheme openRes sch l tried).2.2 →
    (playlist_list_open_uri_scheme openRes sch l tried).2.1 i = true := by
  intro l
  induction l with
  | nil => intro tried i _ h; simp [playlist_list_open_uri_scheme] at h
  | cons hd tl ih =>
    obtain ⟨j, pl, en⟩ := hd
    intro tried i hfail h
    cases hc : scheme_cond pl en sch with
    | false =>
      simp [playlist_list_open_uri_scheme, hc] at h ⊢
      exact ih tried i hfail h
    | true =>
      cases hr : openRes j with
      | some p =>
        simp [playlist_list_open_uri_scheme, hc, hr] at h
        subst h
        rw [hfail] at hr
        simp at hr
      | none =>
        simp [playlist_list_open_uri_scheme, hc, hr] at h ⊢
        rcases h with h | h
        · subst h
          apply scheme_tried_mono
          simp
        · exact ih _ i hfail h

/-- The suffix pass never probes a plugin marked tried. -/
theorem suffix_skips_tried {P : Type} (openRes : Nat → Option P) (suf : String) :
    ∀ (l : Registry) (tried : Nat → Bool) (i : Nat), tried i = true →
    (Pass.suffixUri, i) ∉ (playlist_list_open_uri_suffix openRes suf l tried).2 := by
  intro l
  induction l with
  | nil => intro tried i _ h; simp [playlist_list_open_uri_suffix] at h
  | cons hd tl ih =>
    obtain ⟨j, pl, en⟩ := hd
    intro tried i htr h
    cases hc : suffix_uri_cond pl en (tried j) suf with
    | false =>
      simp [playlist_list_open_uri_suffix, hc] at h
      exact ih tried i htr h
    | true =>
      have hij : i ≠ j := by
        intro hij
        subst hij
        simp [suffix_uri_cond, htr] at hc
      cases hr : openRes j with
      | some p =>
        simp [playlist_list_open_uri_suffix, hc, hr] at h
        exact hij h
      | none =>
        simp [playlist_list_open_uri_suffix, hc, hr] at h
        rcases h with h | h
        · exact hij h
        · exact ih tried i htr h

/-- Every probe the URI suffix pass makes is a suffix-pass probe. -/
theorem suffix_trace_is_suffix {P : Type} (openRes : Nat → Option P) (suf : String) :
    ∀ (l : Registry) (tried : Nat → Bool) (pr : Pass) (i : Nat),
    (pr, i) ∈ (playlist_list_open_uri_suffix openRes suf l tried).2 →
    pr = Pass.suffixUri := by
  intro l
  induction l with
  | nil => intro tried pr i h; simp [playlist_list_open_uri_suffix] at h
  | cons hd tl ih =>
    obtain ⟨j, pl, en⟩ := hd
    intro tried pr i h
    cases hc : suffix_uri_cond pl en (tried j) suf with
    | false =>
      simp [playlist_list_open_uri_suffix, hc] at h
      exact ih tried pr i h
    | true =>
      cases hr : openRes j with
      | some p =>
        simp [playlist_list_open_uri_suffix, hc, hr] at h
        exact h.1
      | none =>
        simp [playlist_list_open_uri_suffix, hc, hr] at h
        rcases h with h | h
        · exact h.1
        · exact ih tried pr i h

/-! ## Claim theorems: SoundCloud extractor -/

/-- C1 (counterexample): the claim says a decode error at any point makes
`soundcloud_open_uri`'s extraction yield a null provider, discarding
accumulated records.  On the code, a yajl decode error breaks out of the
read loop of `soundcloud_parse_json` and the function returns 0 (only a
read failure returns -1), so `soundcloud_open_uri` builds a provider from
the partial song list: here one read whose chunk decodes a full track
record and then reports a decode error still yields that record. -/
theorem c1_counterexample :
    decode_error_reported
        [ReadStep.chunk [SCEvent.startMap, SCEvent.mapKey "stream_url",
            SCEvent.str "u", SCEvent.endMap] false] = true
    ∧ soundcloud_open_uri_model "K" key.Other 0
        [ReadStep.chunk [SCEvent.startMap, SCEvent.mapKey "stream_url",
            SCEvent.str "u", SCEvent.endMap] false] =
      some [{ url := some "u?client_id=K", title := none, time := 0 }] := by
  exact ⟨by decide, by decide⟩

/-- C1 (amended): after any prefix of successfully decoded chunks, a chunk
on which the decoder reports a decode error stops parsing at that point,
but `soundcloud_parse_json` returns 0 and `soundcloud_open_uri` returns a
non-null provider holding exactly the records accumulated up to the error
(in source order); record accumulation is not discarded.  Only a read
error (`nbytes == 0` without EOF) yields a null provider. -/
theorem c1_amended (apikey : String) (k0 : key) (d0 : Int)
    (pre : List ReadStep) (evs : List SCEvent) (rest : List ReadStep)
    (hpre : pre.all ok_chunk = true) :
    soundcloud_open_uri_model apikey k0 d0
        (pre ++ ReadStep.chunk evs false :: rest) =
      some (sc_run apikey (events_of pre ++ evs) (sc_init k0 d0)).songs.reverse := by
  unfold soundcloud_open_uri_model
  rw [sc_parse_loop_ok_pre apikey pre hpre _ _, sc_run_append]
  rfl

/-- Witness for C1 (amended): a successfully parsed chunk followed by an
error chunk that delivered one event yields the (here empty) accumulated
list, not a null provider. -/
theorem c1_amended_witness :
    soundcloud_open_uri_model "K" key.Other 0
        [ReadStep.chunk [SCEvent.startMap] true,
         ReadStep.chunk [SCEvent.mapKey "x"] false] = some [] := by
  have h := c1_amended "K" key.Other 0 [ReadStep.chunk [SCEvent.startMap] true]
    [SCEvent.mapKey "x"] [] (by decide)
  simpa using h

/-- C3 (counterexample): the claim says the scratch `stream_url` and
`title` buffers are cleared after a record closes, so a later record
cannot inherit the previous record's values.  On the code they are not
cleared: in a two-record document whose second record has no `title` key,
the second emitted song carries the first record's title "A". -/
theorem c3_counterexample :
    soundcloud_extract "K" key.Other 0
        [SCEvent.startMap, SCEvent.mapKey "title", SCEvent.str "A",
         SCEvent.mapKey "stream_url", SCEvent.str "x", SCEvent.endMap,
         SCEvent.startMap, SCEvent.mapKey "stream_url", SCEvent.str "y",
         SCEvent.endMap] =
      [{ url := some "x?client_id=K", title := some "A", time := 0 },
       { url := some "y?client_id=K", title := some "A", time := 0 }] := by
  decide

/-- C3 (amended): when a complete track record closes (end-of-map with
`got_url == 1`), the song is prepended and only `got_url` is reset to 0;
the scratch `title` and `stream_url` buffers are retained, so a later
record lacking its own `title` inherits the previous record's title.  (A
later record lacking its own `stream_url` is never emitted, because
emission requires `got_url == 1`, which only a new `stream_url` string
re-establishes.) -/
theorem c3_amended (apikey : String) (d : parse_data) (h : d.got_url = 1) :
    (handle_end_map apikey d).got_url = 0
    ∧ (handle_end_map apikey d).title = d.title
    ∧ (handle_end_map apikey d).stream_url = d.stream_url
    ∧ (handle_end_map apikey d).songs = mk_song apikey d :: d.songs := by
  have h1 : ¬ d.got_url > 1 := by omega
  have h2 : ¬ d.got_url = 0 := by omega
  simp [handle_end_map, h1, h2]

/-- Witness for C3 (amended): a concrete state with `got_url = 1`. -/
theorem c3_amended_witness :
    (handle_end_map "K"
        (parse_data.mk key.Other (some "u") 0 (some "T") 1 [])).title = some "T"
    ∧ (handle_end_map "K"
        (parse_data.mk key.Other (some "u") 0 (some "T") 1 [])).stream_url = some "u" := by
  have h := c3_amended "K"
    (parse_data.mk key.Other (some "u") 0 (some "T") 1 []) (by decide)
  exact ⟨h.2.1, h.2.2.1⟩

/-- C4 (code bug): the claim (and the spec) say a record without a
duration field gets duration 0.  The code never initializes
`data.duration` in `soundcloud_open_uri` (unlike `got_url`, `title` and
`stream_url`, which are initialized right next to it) and never resets it
after a record closes, so a record lacking its own duration reads
whatever value is in the field.  First conjunct: even granting a
zero-initialized field (`d0 = 0`), the second record of a two-record
document deterministically inherits the first record's 5000 ms and gets
tag time 5, not 0.  Second conjunct: the first record of a
duration-less document gets the uninitialized value `d0 / 1000`. -/
theorem c4_duration_not_defaulted :
    soundcloud_extract "K" key.Other 0
        [SCEvent.startMap, SCEvent.mapKey "duration", SCEvent.integer 5000,
         SCEvent.mapKey "stream_url", SCEvent.str "a", SCEvent.endMap,
         SCEvent.startMap, SCEvent.mapKey "stream_url", SCEvent.str "b",
         SCEvent.endMap] =
      [{ url := some "a?client_id=K", title := none, time := 5 },
       { url := some "b?client_id=K", title := none, time := 5 }]
    ∧ ∀ d0 : Int, soundcloud_extract "K" key.Other d0
        [SCEvent.startMap, SCEvent.mapKey "stream_url", SCEvent.str "a",
         SCEvent.endMap] =
      [{ url := some "a?client_id=K", title := none, time := Int.tdiv d0 1000 }] := by
  exact ⟨by decide, fun d0 => rfl⟩

/-- C5 (code bug): the claim (and the spec) say a map key that is not
exactly "duration", "title" or "stream_url" classifies as Other and the
following value is ignored.  `handle_mapkey` compares with
`strncmp(stringval, key_str[i], stringlen)` where `stringlen` is the
event key's own length, so any key that is a byte prefix of a field name
matches it: "t" classifies as Title (and the empty key as Duration), and
the string value following "t" is stored as the title. -/
theorem c5_prefix_keys_match :
    classify_key "t".data = key.Title
    ∧ classify_key [] = key.Duration
    ∧ soundcloud_extract "K" key.Other 0
        [SCEvent.startMap, SCEvent.mapKey "t", SCEvent.str "X",
         SCEvent.mapKey "stream_url", SCEvent.str "u", SCEvent.endMap] =
      [{ url := some "u?client_id=K", title := some "X", time := 0 }] := by
  exact ⟨by decide, by decide, by decide⟩

/-- C8: the record list is built by prepending in `handle_end_map` and
reversed once at end-of-document, which restores source-document order:
for every event stream, the extraction result of `soundcloud_open_uri`
equals the emission trace, i.e. the records in the order in which their
closing end-of-map events occur in the document. -/
theorem c8_source_order (apikey : String) (k0 : key) (d0 : Int)
    (events : List SCEvent) :
    soundcloud_extract apikey k0 d0 events =
      sc_trace apikey events (sc_init k0 d0) := by
  unfold soundcloud_extract
  rw [sc_run_songs]
  simp [sc_init]

/-- C10: starting from the initial state (`got_url = 0`,
`stream_url = NULL`), every callback sequence preserves the invariant
that a positive `got_url` implies a non-NULL `stream_url`; hence every
song `handle_end_map` emits has a URL synthesized from a non-NULL
`stream_url` (`url ≠ none` in the model, i.e. `g_strconcat` never reads a
NULL pointer). -/
theorem c10_no_null_url (apikey : String) (k0 : key) (d0 : Int)
    (events : List SCEvent) :
    ((sc_run apikey events (sc_init k0 d0)).got_url > 0 →
      (sc_run apikey events (sc_init k0 d0)).stream_url ≠ none)
    ∧ ∀ s ∈ (sc_run apikey events (sc_init k0 d0)).songs, s.url ≠ none := by
  have h0 : sc_inv (sc_init k0 d0) := by
    constructor
    · intro h; simp [sc_init] at h
    · intro s hs; simp [sc_init] at hs
  exact sc_run_inv apikey events (sc_init k0 d0) h0

/-- Witness for C10: a run ending mid-record (`got_url = 2 > 0`) with one
emitted song. -/
theorem c10_no_null_url_witness :
    (sc_run "K" [SCEvent.mapKey "stream_url", SCEvent.str "u", SCEvent.endMap,
        SCEvent.mapKey "stream_url", SCEvent.str "v", SCEvent.startMap]
      (sc_init key.Other 0)).stream_url ≠ none
    ∧ ({ url := some "u?client_id=K", title := none, time := 0 } : Song).url ≠ none := by
  have h := c10_no_null_url "K" key.Other 0
    [SCEvent.mapKey "stream_url", SCEvent.str "u", SCEvent.endMap,
     SCEvent.mapKey "stream_url", SCEvent.str "v", SCEvent.startMap]
  exact ⟨h.1 (by decide), h.2 { url := some "u?client_id=K", title := none, time := 0 }
    (by decide)⟩

/-! ## Claim theorems: resolution engine -/

/-- C2: in one `playlist_list_open_uri` call, a plugin that was probed by
the scheme pass (hence was enabled, URI-capable and matched the extracted
scheme) and whose open attempt failed (`openRes i = none`) is never probed
again by the suffix pass of the same call, even when its suffix set
contains the URI's suffix: the failed attempt set `tried[i]` and the
suffix pass skips tried plugins. -/
theorem c2_failed_scheme_not_retried {P : Type} (openRes : Nat → Option P)
    (plugins : Registry) (sch suf : Option String) (i : Nat)
    (hfail : openRes i = none)
    (hprobed : (Pass.scheme, i) ∈ (playlist_list_open_uri openRes plugins sch suf).2) :
    (Pass.suffixUri, i) ∉ (playlist_list_open_uri openRes plugins sch suf).2 := by
  cases sch with
  | none =>
    cases suf with
    | none => simp [playlist_list_open_uri] at hprobed
    | some su =>
      simp [playlist_list_open_uri] at hprobed
      exact absurd
        (suffix_trace_is_suffix openRes su plugins _ Pass.scheme i hprobed)
        (by decide)
  | some s0 =>
    cases hs : (playlist_list_open_uri_scheme openRes s0 plugins (fun _ => false)).1 with
    | some p =>
      simp only [playlist_list_open_uri, hs] at hprobed ⊢
      intro hmem
      exact absurd
        (scheme_trace_is_scheme openRes s0 plugins _ Pass.suffixUri i hmem)
        (by decide)
    | none =>
      cases suf with
      | none =>
        simp only [playlist_list_open_uri, hs] at hprobed ⊢
        intro hmem
        exact absurd
          (scheme_trace_is_scheme openRes s0 plugins _ Pass.suffixUri i hmem)
          (by decide)
      | some su =>
        simp only [playlist_list_open_uri, hs, List.mem_append] at hprobed ⊢
        have hin : (Pass.scheme, i) ∈
            (playlist_list_open_uri_scheme openRes s0 plugins (fun _ => false)).2.2 := by
          rcases hprobed with h | h
          · exact h
          · exact absurd
              (suffix_trace_is_suffix openRes su plugins _ Pass.scheme i h)
              (by decide)
        have htried := scheme_fail_sets_tried openRes s0 plugins
          (fun _ => false) i hfail hin
        intro hmem
        rcases hmem with h | h
        · exact absurd
            (scheme_trace_is_scheme openRes s0 plugins _ Pass.suffixUri i h)
            (by decide)
        · exact suffix_skips_tried openRes su plugins _ i htried h

/-- Witness for C2: plugin 0 matches scheme "sch", its open fails, and
its suffix set contains "m3u" (the URI's suffix); it is not probed by the
suffix pass. -/
theorem c2_failed_scheme_not_retried_witness :
    (Pass.suffixUri, 0) ∉ (playlist_list_open_uri (fun _ => (none : Option Nat))
      [(0, playlist_plugin.mk "a" true false (some ["sch"]) (some ["m3u"]) none, true),
       (1, playlist_plugin.mk "b" true false none (some ["m3u"]) none, true)]
      (some "sch") (some "m3u")).2 := by
  exact c2_failed_scheme_not_retried (fun _ => (none : Option Nat))
    [(0, playlist_plugin.mk "a" true false (some ["sch"]) (some ["m3u"]) none, true),
     (1, playlist_plugin.mk "b" true false none (some ["m3u"]) none, true)]
    (some "sch") (some "m3u") 0 rfl (by decide)

/-- Every probe the MIME pass makes is a MIME-pass probe. -/
theorem mime2_trace_is_mime {P : Type} (openS : Nat → Option P) (m : String) :
    ∀ (l : Registry) (pr : Pass) (i : Nat),
    (pr, i) ∈ (playlist_list_open_stream_mime2 openS m l).2 →
    pr = Pass.mimeType := by
  intro l
  induction l with
  | nil => intro pr i h; simp [playlist_list_open_stream_mime2] at h
  | cons hd tl ih =>
    obtain ⟨j, pl, en⟩ := hd
    intro pr i h
    cases hc : mime_cond pl en m with
    | false =>
      simp [playlist_list_open_stream_mime2, hc] at h
      exact ih pr i h
    | true =>
      cases hr : openS j with
      | some p =>
        simp [playlist_list_open_stream_mime2, hc, hr] at h
        exact h.1
      | none =>
        simp [playlist_list_open_stream_mime2, hc, hr] at h
        rcases h with h | h
        · exact h.1
        · exact ih pr i h

/-- When exactly one registry entry matches the MIME type and its open
attempt succeeds, the MIME pass returns its provider. -/
theorem mime2_unique_success {P : Type} (openS : Nat → Option P) (m : String) :
    ∀ (l : Registry) (i : Nat) (pl : playlist_plugin) (p : P),
    (i, pl, true) ∈ l → mime_cond pl true m = true → openS i = some p →
    (∀ x ∈ l, mime_cond x.2.1 x.2.2 m = true → x = (i, pl, true)) →
    (playlist_list_open_stream_mime2 openS m l).1 = some p := by
  intro l
  induction l with
  | nil => intro i pl p hmem _ _ _; simp at hmem
  | cons hd tl ih =>
    obtain ⟨j, q, e⟩ := hd
    intro i pl p hmem hcond hopen huniq
    cases hc : mime_cond q e m with
    | true =>
      have heq := huniq (j, q, e) (by simp) hc
      have hj : j = i := congrArg (fun x => x.1) heq
      subst hj
      simp [playlist_list_open_stream_mime2, hc, hopen]
    | false =>
      rcases List.mem_cons.mp hmem with h | h
      · have : mime_cond q e m = true := by
          have h1 : q = pl := by
            have := congrArg (fun x => x.2.1) h
            simpa using this.symm
          have h2 : e = true := by
            have := congrArg (fun x => x.2.2) h
            simpa using this.symm
          rw [h1, h2]; exact hcond
        rw [hc] at this
        cases this
      · simp [playlist_list_open_stream_mime2, hc]
        exact ih i pl p h hcond hopen
          (fun x hx hcx => huniq x (List.mem_cons_of_mem _ hx) hcx)

/-- C6: in `playlist_list_open_stream`, MIME matching takes strict
precedence over suffix matching: when the stream's MIME type is usable
(after parameter stripping it is `m`), exactly one enabled stream-capable
plugin's MIME set contains `m`, and that plugin's open attempt succeeds,
the call returns that plugin's provider and the suffix pass is never
entered (no suffix-pass probe occurs), whatever plugin the supplied URI's
suffix would map to. -/
theorem c6_mime_precedes_suffix {P : Type} (openS : Nat → Option P)
    (plugins : Registry) (usuf : Option String) (full m : String)
    (i : Nat) (pl : playlist_plugin) (p : P)
    (hstrip : mime_strip full = some m)
    (hmem : (i, pl, true) ∈ plugins)
    (hcond : mime_cond pl true m = true)
    (hopen : openS i = some p)
    (huniq : ∀ x ∈ plugins, mime_cond x.2.1 x.2.2 m = true → x = (i, pl, true)) :
    (playlist_list_open_stream openS plugins (some full) usuf).1 = some p
    ∧ ∀ j, (Pass.suffixStream, j) ∉
        (playlist_list_open_stream openS plugins (some full) usuf).2 := by
  have h1 : (playlist_list_open_stream_mime2 openS m plugins).1 = some p :=
    mime2_unique_success openS m plugins i pl p hmem hcond hopen huniq
  have h2 : playlist_list_open_stream_mime openS full plugins =
      playlist_list_open_stream_mime2 openS m plugins := by
    simp [playlist_list_open_stream_mime, hstrip]
  constructor
  · simp only [playlist_list_open_stream, h2, h1]
  · intro j hmem2
    simp only [playlist_list_open_stream, h2, h1] at hmem2
    exact absurd (mime2_trace_is_mime openS m plugins Pass.suffixStream j hmem2)
      (by decide)

/-- Witness for C6: a registry where plugin 0 is the unique MIME match
and opens successfully while plugin 1 matches the URI suffix "pls". -/
theorem c6_mime_precedes_suffix_witness :
    (playlist_list_open_stream (fun j => if j = 0 then some 7 else some 8)
      [(0, playlist_plugin.mk "a" false true none none (some ["audio/x-mpegurl"]), true),
       (1, playlist_plugin.mk "b" false true none (some ["pls"]) none, true)]
      (some "audio/x-mpegurl") (some "pls")).1 = some 7
    ∧ (Pass.suffixStream, 1) ∉ (playlist_list_open_stream
      (fun j => if j = 0 then some 7 else some 8)
      [(0, playlist_plugin.mk "a" false true none none (some ["audio/x-mpegurl"]), true),
       (1, playlist_plugin.mk "b" false true none (some ["pls"]) none, true)]
      (some "audio/x-mpegurl") (some "pls")).2 := by
  have h := c6_mime_precedes_suffix (fun j => if j = 0 then some 7 else some 8)
    [(0, playlist_plugin.mk "a" false true none none (some ["audio/x-mpegurl"]), true),
     (1, playlist_plugin.mk "b" false true none (some ["pls"]) none, true)]
    (some "pls") "audio/x-mpegurl" "audio/x-mpegurl"
    0 (playlist_plugin.mk "a" false true none none (some ["audio/x-mpegurl"]))
    7 (by decide) (by decide) (by decide) (by decide) (by decide)
  exact ⟨h.1, h.2 1⟩

/-- `strchr`/`g_strndup` arithmetic: taking characters up to the first
`;` of `pre ++ ';' :: post` yields `pre` when `pre` has no `;`. -/
theorem takeWhile_before_semicolon :
    ∀ (pre post : List Char), ';' ∉ pre →
    List.takeWhile (fun c => !(c == ';')) (pre ++ ';' :: post) = pre := by
  intro pre
  induction pre with
  | nil => intro post _; simp
  | cons c cs ih =>
    intro post h
    have hc : ¬(c = ';') := fun hc => h (by simp [hc])
    have hcs : ';' ∉ cs := fun hm => h (List.mem_cons_of_mem c hm)
    have hb : (c == ';') = false := by simp [hc]
    simp only [List.cons_append, List.takeWhile_cons, hb]
    simp [ih post hcs]

/-- `playlist_list_open_stream_mime`'s parameter handling on a MIME
string containing a `;`: the result of `mime_strip`. -/
theorem mime_strip_semicolon (full : String) (pre post : List Char)
    (hsplit : full.data = pre ++ ';' :: post) (hpre : ';' ∉ pre) :
    mime_strip full = if pre.length = 0 then none else some (String.mk pre) := by
  unfold mime_strip
  rw [hsplit, takeWhile_before_semicolon pre post hpre]
  have hlen : ¬ pre.length = (pre ++ ';' :: post).length := by
    simp only [List.length_append, List.length_cons]
    omega
  rw [if_neg hlen]

/-- C7: for every MIME string of the form `pre ++ ";" ++ post` where
`pre` has no earlier `;`: if `pre` is non-empty, plugin matching in
`playlist_list_open_stream_mime` uses exactly the portion `pre` before
the first `;` (e.g. "text/xml; charset=utf-8" matches as "text/xml");
if `pre` is empty (the `;` is the first character), MIME matching is
skipped entirely and `playlist_list_open_stream` behaves exactly as if
the stream exposed no MIME type, falling through to suffix matching. -/
theorem c7_mime_parameter_stripping {P : Type} (openS : Nat → Option P)
    (plugins : Registry) (usuf : Option String) (full : String)
    (pre post : List Char)
    (hsplit : full.data = pre ++ ';' :: post) (hpre : ';' ∉ pre) :
    (pre ≠ [] → playlist_list_open_stream_mime openS full plugins =
      playlist_list_open_stream_mime2 openS (String.mk pre) plugins)
    ∧ (pre = [] → playlist_list_open_stream openS plugins (some full) usuf =
      playlist_list_open_stream openS plugins none usuf) := by
  have hstrip := mime_strip_semicolon full pre post hsplit hpre
  constructor
  · intro hne
    have h0 : ¬ pre.length = 0 := by simpa using hne
    rw [if_neg h0] at hstrip
    simp [playlist_list_open_stream_mime, hstrip]
  · intro h0
    subst h0
    simp only [List.length_nil, if_pos rfl] at hstrip
    simp [playlist_list_open_stream, playlist_list_open_stream_mime, hstrip]

/-- Witness for C7: "text/xml; charset=utf-8" matches as "text/xml", at a
concrete registry whose plugin 0 lists MIME type "text/xml". -/
theorem c7_mime_parameter_stripping_witness :
    playlist_list_open_stream_mime (fun _ => (none : Option Nat))
      "text/xml; charset=utf-8"
      [(0, playlist_plugin.mk "a" false true none none (some ["text/xml"]), true)] =
    playlist_list_open_stream_mime2 (fun _ => (none : Option Nat))
      (String.mk "text/xml".data)
      [(0, playlist_plugin.mk "a" false true none none (some ["text/xml"]), true)] := by
  have h := c7_mime_parameter_stripping (fun _ => (none : Option Nat))
    [(0, playlist_plugin.mk "a" false true none none (some ["text/xml"]), true)]
    none "text/xml; charset=utf-8" "text/xml".data " charset=utf-8".data
    (by decide) (by decide)
  exact h.1 (by decide)

/-- Every finish call is for a slot at or past the starting index. -/
theorem gf_mem_ge :
    ∀ (en : List Bool) (st j : Nat),
    j ∈ playlist_list_global_finish en st → st ≤ j := by
  intro en
  induction en with
  | nil => intro st j h; simp [playlist_list_global_finish] at h
  | cons b rest ih =>
    intro st j h
    cases b with
    | false =>
      simp only [playlist_list_global_finish, if_neg] at h
      exact Nat.le_of_succ_le (ih (st + 1) j (by simpa using h))
    | true =>
      simp only [playlist_list_global_finish, if_pos, List.mem_cons] at h
      rcases h with h | h
      · omega
      · exact Nat.le_of_succ_le (ih (st + 1) j h)

/-- How many finish calls slot `st + k` receives: exactly one when its
enabled flag is set, zero otherwise (also zero for out-of-range slots). -/
theorem gf_count :
    ∀ (en : List Bool) (st k : Nat),
    (playlist_list_global_finish en st).count (st + k) =
      if en.getD k false = true then 1 else 0 := by
  intro en
  induction en with
  | nil => intro st k; simp [playlist_list_global_finish]
  | cons b rest ih =>
    intro st k
    cases k with
    | zero =>
      have h0 : (playlist_list_global_finish rest (st + 1)).count st = 0 := by
        rw [List.count_eq_zero]
        intro hmem
        have := gf_mem_ge rest (st + 1) st hmem
        omega
      cases b with
      | true =>
        simp only [playlist_list_global_finish, if_pos, List.count_cons,
          Nat.add_zero, List.getD_cons_zero]
        simp [h0]
      | false =>
        simp only [playlist_list_global_finish, if_neg, Nat.add_zero,
          List.getD_cons_zero]
        simp [h0]
    | succ k2 =>
      have harith : st + (k2 + 1) = (st + 1) + k2 := by omega
      cases b with
      | true =>
        simp only [playlist_list_global_finish, if_pos, List.count_cons,
          List.getD_cons_succ]
        rw [harith, ih (st + 1) k2]
        simp [harith]
        omega
      | false =>
        have hf : playlist_list_global_finish (false :: rest) st =
            playlist_list_global_finish rest (st + 1) := by
          simp [playlist_list_global_finish]
        rw [hf]
        simp only [List.getD_cons_succ]
        rw [harith, ih (st + 1) k2]

/-- The finish calls are made in registry-declared order (strictly
ascending slot indices). -/
theorem gf_sorted :
    ∀ (en : List Bool) (st : Nat),
    List.Sorted (fun a b => a < b) (playlist_list_global_finish en st) := by
  intro en
  induction en with
  | nil => intro st; simp [playlist_list_global_finish]
  | cons b rest ih =>
    intro st
    cases b with
    | false => simpa [playlist_list_global_finish] using ih (st + 1)
    | true =>
      simp only [playlist_list_global_finish, if_pos, List.sorted_cons]
      constructor
      · intro j hmem
        have := gf_mem_ge rest (st + 1) j hmem
        omega
      · exact ih (st + 1)

/-- Every init call is for a slot at or past the starting index. -/
theorem gi_calls_ge (cfg : String → Option Bool) (ir : Nat → Bool) :
    ∀ (l : List playlist_plugin) (st j : Nat),
    j ∈ (playlist_list_global_init cfg ir l st).2 → st ≤ j := by
  intro l
  induction l with
  | nil => intro st j h; simp [playlist_list_global_init] at h
  | cons pl rest ih =>
    intro st j h
    rcases hcfg : cfg pl.name with _ | b
    · simp only [playlist_list_global_init, hcfg, List.mem_cons] at h
      rcases h with h | h
      · omega
      · exact Nat.le_of_succ_le (ih (st + 1) j h)
    · cases b with
      | false =>
        simp only [playlist_list_global_init, hcfg] at h
        exact Nat.le_of_succ_le (ih (st + 1) j h)
      | true =>
        simp only [playlist_list_global_init, hcfg, List.mem_cons] at h
        rcases h with h | h
        · omega
        · exact Nat.le_of_succ_le (ih (st + 1) j h)

/-- A slot whose configuration block explicitly disables it stays
disabled and its init is never called. -/
theorem gi_skip (cfg : String → Option Bool) (ir : Nat → Bool) :
    ∀ (l : List playlist_plugin) (st k : Nat), k < l.length →
    cfg (l.getD k default).name = some false →
    (playlist_list_global_init cfg ir l st).1.getD k false = false
    ∧ (st + k) ∉ (playlist_list_global_init cfg ir l st).2 := by
  intro l
  induction l with
  | nil => intro st k hk _; simp at hk
  | cons pl rest ih =>
    intro st k hk hcfg
    cases k with
    | zero =>
      simp only [List.getD_cons_zero] at hcfg
      simp only [playlist_list_global_init, hcfg]
      constructor
      · simp
      · intro hmem
        simp only [Nat.add_zero] at hmem
        have := gi_calls_ge cfg ir rest (st + 1) st hmem
        omega
    | succ k2 =>
      simp only [List.getD_cons_succ] at hcfg
      have hk2 : k2 < rest.length := by simpa using hk
      have harith : st + (k2 + 1) = (st + 1) + k2 := by omega
      have hrec := ih (st + 1) k2 hk2 hcfg
      rcases hcfg2 : cfg pl.name with _ | b
      · simp only [playlist_list_global_init, hcfg2, List.getD_cons_succ,
          List.mem_cons]
        refine ⟨hrec.1, ?_⟩
        intro hmem
        rcases hmem with h | h
        · omega
        · rw [harith] at h; exact hrec.2 h
      · cases b with
        | false =>
          simp only [playlist_list_global_init, hcfg2, List.getD_cons_succ]
          refine ⟨hrec.1, ?_⟩
          intro h
          rw [harith] at h; exact hrec.2 h
        | true =>
          simp only [playlist_list_global_init, hcfg2, List.getD_cons_succ,
            List.mem_cons]
          refine ⟨hrec.1, ?_⟩
          intro hmem
          rcases hmem with h | h
          · omega
          · rw [harith] at h; exact hrec.2 h

/-- C9: after `playlist_list_global_init`, `playlist_list_global_finish`
makes exactly one finish call for every slot whose enabled flag is true
and none for a slot whose flag is false (in particular for a slot whose
init returned false), the finish calls are in registry-declared order,
and a slot whose configuration block explicitly disables it ends up
disabled with its init never called. -/
theorem c9_init_finish_paired (plugins : List playlist_plugin)
    (cfg : String → Option Bool) (ir : Nat → Bool) (i : Nat) :
    ((playlist_list_global_init cfg ir plugins 0).1.getD i false = true →
      (playlist_list_global_finish
        (playlist_list_global_init cfg ir plugins 0).1 0).count i = 1)
    ∧ ((playlist_list_global_init cfg ir plugins 0).1.getD i false = false →
      (playlist_list_global_finish
        (playlist_list_global_init cfg ir plugins 0).1 0).count i = 0)
    ∧ List.Sorted (fun a b => a < b)
        (playlist_list_global_finish
          (playlist_list_global_init cfg ir plugins 0).1 0)
    ∧ (i < plugins.length → cfg (plugins.getD i default).name = some false →
      (playlist_list_global_init cfg ir plugins 0).1.getD i false = false
      ∧ i ∉ (playlist_list_global_init cfg ir plugins 0).2) := by
  have hcount := gf_count (playlist_list_global_init cfg ir plugins 0).1 0 i
  simp only [Nat.zero_add] at hcount
  refine ⟨fun h => ?_, fun h => ?_, gf_sorted _ 0, fun hlt hcfg => ?_⟩
  · rw [hcount, if_pos h]
  · have hne : ¬ ((playlist_list_global_init cfg ir plugins 0).1.getD i false = true) := by
      rw [h]; decide
    rw [hcount, if_neg hne]
  · have := gi_skip cfg ir plugins 0 i hlt hcfg
    simpa using this

/-- Witness for C9: two plugins, the first disabled by configuration, the
second enabled; the second gets one finish call, the first zero finish
calls, no init call, and a false flag. -/
theorem c9_init_finish_paired_witness :
    ((playlist_list_global_init (fun n => if n = "a" then some false else none)
        (fun _ => true)
        [playlist_plugin.mk "a" true false none none none,
         playlist_plugin.mk "b" true false none none none] 0).1.getD 0 false = false
      ∧ 0 ∉ (playlist_list_global_init (fun n => if n = "a" then some false else none)
        (fun _ => true)
        [playlist_plugin.mk "a" true false none none none,
         playlist_plugin.mk "b" true false none none none] 0).2)
    ∧ (playlist_list_global_finish
        (playlist_list_global_init (fun n => if n = "a" then some false else none)
          (fun _ => true)
          [playlist_plugin.mk "a" true false none none none,
           playlist_plugin.mk "b" true false none none none] 0).1 0).count 1 = 1 := by
  constructor
  · exact (c9_init_finish_paired
      [playlist_plugin.mk "a" true false none none none,
       playlist_plugin.mk "b" true false none none none]
      (fun n => if n = "a" then some false else none) (fun _ => true) 0).2.2.2
      (by decide) (by decide)
  · exact (c9_init_finish_paired
      [playlist_plugin.mk "a" true false none none none,
       playlist_plugin.mk "b" true false none none none]
      (fun n => if n = "a" then some false else none) (fun _ => true) 1).1
      (by decide)

end MPD
